import Mathlib

/-!
Verification of the Gemini image-editor client (`src/services/geminiService.ts`
and `src/App.tsx`) against its natural-language specification.

The embedding models:
* `UploadedFile` — the value object produced by image ingestion
  (fields `base64`, `mimeType`, `name` as in `types.ts` usage);
* the wire types of the `@google/genai` call as the adapter uses them
  (request parts, response candidates/content/parts with optional fields);
* `editImageWithGemini` — the adapter, parametrised by the network transport
  `net : GenerateContentRequest → NetOutcome`, where a transport outcome is
  either a response or a thrown value (a recognizable `Error` carrying a
  message, or any other thrown value);
* `handleSubmit` and the relevant `App` component state, with an explicit
  count of adapter invocations so that "no network call" is statable.

JavaScript strings are modelled as Lean `String`; `str.split(',')` is
modelled by an explicit recursion on the character list (`jsSplitCommaChars`),
which matches the JS semantics for a one-character separator, including
`"".split(',') = [""]`.
-/

set_option autoImplicit false

/-- The `UploadedFile` value object (`base64` data URL, declared MIME type,
original file name). -/
structure UploadedFile where
  base64 : String
  mimeType : String
  name : String
deriving DecidableEq, Repr

/-- The `Modality` enum of the SDK, as far as the adapter uses it. -/
inductive Modality where
  | IMAGE
  | TEXT
deriving DecidableEq, Repr

/-- Inline binary content of a response part (`inlineData`): encoded data and
its declared MIME type. -/
structure InlineData where
  data : String
  mimeType : String
deriving DecidableEq, Repr

/-- One content part of a response: optionally inline binary data, optionally
text.  The adapter only ever tests `part.inlineData` for presence. -/
structure ContentPart where
  inlineData : Option InlineData := none
  text : Option String := none
deriving DecidableEq, Repr

/-- `content` of a candidate: an optional list of parts
(`content?.parts` in the source). -/
structure Content where
  parts : Option (List ContentPart)
deriving DecidableEq, Repr

/-- One candidate of the response (`candidates?.[i]`), with optional
content. -/
structure Candidate where
  content : Option Content
deriving DecidableEq, Repr

/-- The response of `ai.models.generateContent`: an optional candidate
list. -/
structure GenerateContentResponse where
  candidates : Option (List Candidate)
deriving DecidableEq, Repr

/-- One part of the outbound request: either inline data (the data component
is `Option String` because `split(',')[1]` can be `undefined`) tagged with a
MIME type, or instruction text. -/
inductive RequestPart where
  | inlineData (data : Option String) (mimeType : String)
  | text (t : String)
deriving DecidableEq, Repr

/-- The outbound request the adapter hands to `generateContent`: model name,
ordered content parts, and the requested response modalities. -/
structure GenerateContentRequest where
  model : String
  parts : List RequestPart
  responseModalities : List Modality
deriving DecidableEq, Repr

/-- A value thrown inside the `try` block: a recognizable `Error` object
carrying a message (`error instanceof Error`), or any other thrown value. -/
inductive Thrown where
  | errObj (message : String)
  | other
deriving DecidableEq, Repr

/-- Outcome of the awaited network call: a response, or a thrown value. -/
abbrev NetOutcome := Except Thrown GenerateContentResponse

/-- JS `String.prototype.split(',')` on the character list: splits at every
comma; the empty list yields `[[]]` just as `"".split(',')` yields `[""]`. -/
def jsSplitCommaChars : List Char → List (List Char)
  | [] => [[]]
  | c :: rest =>
    let r := jsSplitCommaChars rest
    if c = ',' then [] :: r else (c :: r.headD []) :: r.tail

/-- JS `s.split(',')` for a Lean `String`. -/
def jsSplitComma (s : String) : List String :=
  (jsSplitCommaChars s.data).map String.mk

/-- Line 13 of `geminiService.ts`: `image.base64.split(',')[1]` — the data-URL
stripping step; `none` models `undefined`. -/
def stripBase64 (s : String) : Option String :=
  (jsSplitComma s).get? 1

/-- The request payload built by `editImageWithGemini` (lines 15–33 of
`geminiService.ts`): first the inline-data part holding the stripped base64
content and the input's MIME type, then the prompt text; only image output is
requested. -/
def buildRequest (image : UploadedFile) (prompt : String) : GenerateContentRequest :=
  { model := "gemini-2.5-flash-image"
    parts := [RequestPart.inlineData (stripBase64 image.base64) image.mimeType,
              RequestPart.text prompt]
    responseModalities := [Modality.IMAGE] }

/-- `response.candidates?.[0]?.content?.parts ?? []` (line 36). -/
def responseParts (r : GenerateContentResponse) : List ContentPart :=
  (((r.candidates.bind fun cs => cs.get? 0).bind
      fun c => c.content).bind fun ct => ct.parts).getD []

/-- The scanning loop of lines 36–42: the first part whose `inlineData` is
present wins; later parts are never consulted. -/
def findFirstInline : List ContentPart → Option InlineData
  | [] => none
  | p :: rest =>
    match p.inlineData with
    | some d => some d
    | none => findFirstInline rest

/-- The data-URL template of line 40. -/
def mkDataUrl (mimeType data : String) : String :=
  "data:" ++ mimeType ++ ";base64," ++ data

/-- Message of the `Error` thrown at line 44. -/
def noImageMessage : String := "No image was generated in the API response."

/-- Fallback rejection string of line 50. -/
def unknownErrorMessage : String :=
  "An unknown error occurred while generating the image."

/-- The body of the `try` block after the network call: scan the first
candidate's parts for inline data; build the data URL from the part's own
MIME type, or throw the no-image `Error`. -/
def scanResponse (resp : GenerateContentResponse) : Except Thrown String :=
  match findFirstInline (responseParts resp) with
  | some d => Except.ok (mkDataUrl d.mimeType d.data)
  | none => Except.error (Thrown.errObj noImageMessage)

/-- The `catch` clause of lines 45–51 applied to the try-block outcome: a
recognizable `Error` rejects with its message appended to the fixed text;
anything else rejects with the generic message. -/
def editResultOf (o : NetOutcome) : Except String String :=
  match o.bind scanResponse with
  | Except.ok s => Except.ok s
  | Except.error (Thrown.errObj m) =>
      Except.error ("Failed to generate image: " ++ m)
  | Except.error Thrown.other => Except.error unknownErrorMessage

/-- `editImageWithGemini` (lines 7–52 of `geminiService.ts`), parametrised by
the transport `net`: build the request, submit it once, and convert the
outcome.  `Except.error s` models the promise rejecting with the string
`s`. -/
def editImageWithGemini (net : GenerateContentRequest → NetOutcome)
    (image : UploadedFile) (prompt : String) : Except String String :=
  editResultOf (net (buildRequest image prompt))

/-! ## The App component (`src/App.tsx`) -/

/-- The pieces of `App` state that `handleSubmit` reads or writes. -/
structure AppState where
  originalImage : Option UploadedFile
  editedImage : Option String
  prompt : String
  isLoading : Bool
  error : Option String
deriving DecidableEq, Repr

/-- The validation message set at line 124 of `App.tsx`. -/
def validationMessage : String := "Please upload an image and provide a prompt."

/-- `handleSubmit` (lines 122–139 of `App.tsx`) as a state transformer over
the resolved final state, paired with the number of `editImageWithGemini`
invocations it performed.  `!originalImage || !prompt` guards the early
return (an empty JS string is falsy); otherwise the adapter runs once and
the `try`/`catch`/`finally` updates the state. -/
def handleSubmit (net : GenerateContentRequest → NetOutcome)
    (s : AppState) : AppState × Nat :=
  match s.originalImage with
  | none => ({ s with error := some validationMessage }, 0)
  | some img =>
    if s.prompt = "" then
      ({ s with error := some validationMessage }, 0)
    else
      match editImageWithGemini net img s.prompt with
      | Except.ok result =>
          ({ s with isLoading := false, error := none,
                    editedImage := some result }, 1)
      | Except.error e =>
          ({ s with isLoading := false, error := some e,
                    editedImage := none }, 1)

/-! ## Image ingestion (`fileToUploadedFile`, lines 7–20 of `App.tsx`)

`fileToUploadedFile` delegates the encoding wholly to the browser's
`FileReader.readAsDataURL`, which is platform code not present in the
repository; it is modelled below from the spec's description of the
self-describing encoded string. -/

/-- A selected browser `File`: its content bytes (each `< 256` where it
matters) and the declared MIME type and name. -/
structure InputFile where
  bytes : List Nat
  type : String
  name : String

/-- The 64 base64 digits in order. -/
def base64Alphabet : List Char :=
  "ABCDEFGHIJKLMNOPQRSTUVWXYZabcdefghijklmnopqrstuvwxyz0123456789+/".data

/-- The base64 digit of a 6-bit value. -/
def b64Char (n : Nat) : Char := base64Alphabet.getD n 'A'

/-- The 6-bit value of a base64 digit. -/
def b64Val (c : Char) : Nat := base64Alphabet.indexOf c

/-- Standard base64 encoding of a byte list, three bytes to four digits,
padded with `=`. -/
def b64EncodeChars : List Nat → List Char
  | [] => []
  | [b1] => [b64Char (b1 / 4), b64Char (b1 % 4 * 16), '=', '=']
  | [b1, b2] =>
      [b64Char (b1 / 4), b64Char (b1 % 4 * 16 + b2 / 16),
       b64Char (b2 % 16 * 4), '=']
  | b1 :: b2 :: b3 :: rest =>
      b64Char (b1 / 4) :: b64Char (b1 % 4 * 16 + b2 / 16) ::
      b64Char (b2 % 16 * 4 + b3 / 64) :: b64Char (b3 % 64) ::
      b64EncodeChars rest

/-- Standard base64 decoding, four digits to three bytes, honouring `=`
padding. -/
def b64DecodeChars : List Char → List Nat
  | a :: b :: c :: d :: rest =>
      if c = '=' then [b64Val a * 4 + b64Val b / 16]
      else if d = '=' then
        [b64Val a * 4 + b64Val b / 16, b64Val b % 16 * 16 + b64Val c / 4]
      else
        (b64Val a * 4 + b64Val b / 16) :: (b64Val b % 16 * 16 + b64Val c / 4) ::
        (b64Val c % 4 * 64 + b64Val d) :: b64DecodeChars rest
  | _ => []

/-- Modelled from the spec: the browser's `FileReader.readAsDataURL`, which
is not part of the repository, yields a self-describing encoded string — a
media-type tag followed by the base64 encoding of the bytes. -/
def readAsDataURL (bytes : List Nat) (mimeType : String) : String :=
  "data:" ++ mimeType ++ ";base64," ++ String.mk (b64EncodeChars bytes)

/-- `fileToUploadedFile` (lines 7–20 of `App.tsx`): the resolved
`UploadedFile` carries the data URL of the file's bytes, the file's declared
type, and its name. -/
def fileToUploadedFile (f : InputFile) : UploadedFile :=
  { base64 := readAsDataURL f.bytes f.type
    mimeType := f.type
    name := f.name }

/-! ## Helper lemmas -/

theorem findFirstInline_eq_find : ∀ l : List ContentPart,
    findFirstInline l =
      (l.find? fun p => p.inlineData.isSome).bind fun p => p.inlineData
  | [] => rfl
  | p :: rest => by
    cases hd : p.inlineData with
    | some d =>
      rw [List.find?_cons_of_pos]
      · simp [findFirstInline, hd]
      · simp [hd]
    | none =>
      rw [List.find?_cons_of_neg]
      · simp [findFirstInline, hd, findFirstInline_eq_find rest]
      · simp [hd]

theorem findFirstInline_eq_none : ∀ l : List ContentPart,
    (∀ p ∈ l, p.inlineData = none) → findFirstInline l = none
  | [], _ => rfl
  | p :: rest, h => by
    have hp : p.inlineData = none := h p (by simp)
    have ih := findFirstInline_eq_none rest fun q hq => h q (by simp [hq])
    simp [findFirstInline, hp, ih]

theorem jsSplitCommaChars_no_comma : ∀ l : List Char,
    ',' ∉ l → jsSplitCommaChars l = [l]
  | [], _ => rfl
  | c :: rest, h => by
    have hc : ¬ c = ',' := fun hc => h (by simp [hc])
    have ih := jsSplitCommaChars_no_comma rest fun hr => h (by simp [hr])
    simp [jsSplitCommaChars, hc, ih]

theorem jsSplitCommaChars_append : ∀ a b : List Char, ',' ∉ a →
    jsSplitCommaChars (a ++ ',' :: b) = a :: jsSplitCommaChars b
  | [], b, _ => by simp [jsSplitCommaChars]
  | c :: a, b, h => by
    have hc : ¬ c = ',' := fun hc => h (by simp [hc])
    have ih := jsSplitCommaChars_append a b fun ha => h (by simp [ha])
    simp [jsSplitCommaChars, hc, ih]

theorem stripBase64_of_no_comma (s : String) (h : ',' ∉ s.data) :
    stripBase64 s = none := by
  simp [stripBase64, jsSplitComma, jsSplitCommaChars_no_comma s.data h]

theorem stripBase64_one_comma (s : String) (a b : List Char)
    (hs : s.data = a ++ ',' :: b) (ha : ',' ∉ a) (hb : ',' ∉ b) :
    stripBase64 s = some (String.mk b) := by
  simp [stripBase64, jsSplitComma, hs, jsSplitCommaChars_append a b ha,
    jsSplitCommaChars_no_comma b hb]

theorem stripBase64_two_commas (s : String) (a b c : List Char)
    (hs : s.data = a ++ ',' :: (b ++ ',' :: c)) (ha : ',' ∉ a) (hb : ',' ∉ b) :
    stripBase64 s = some (String.mk b) := by
  simp [stripBase64, jsSplitComma, hs, jsSplitCommaChars_append a _ ha,
    jsSplitCommaChars_append b c hb]

theorem b64Val_b64Char : ∀ n : Nat, n < 64 → b64Val (b64Char n) = n := by
  decide

theorem b64Char_lt_ne_eq : ∀ n : Nat, n < 64 → b64Char n ≠ '=' := by
  decide

theorem b64Char_lt_ne_comma : ∀ n : Nat, n < 64 → b64Char n ≠ ',' := by
  decide

theorem b64_decode_encode : ∀ l : List Nat, (∀ b ∈ l, b < 256) →
    b64DecodeChars (b64EncodeChars l) = l
  | [], _ => rfl
  | [b1], h => by
    have hb1 : b1 < 256 := h b1 (by simp)
    simp only [b64EncodeChars, b64DecodeChars]
    rw [if_pos trivial]
    rw [b64Val_b64Char _ (by omega : b1 / 4 < 64),
      b64Val_b64Char _ (by omega : b1 % 4 * 16 < 64)]
    simp only [List.cons.injEq, and_true]
    omega
  | [b1, b2], h => by
    have hb1 : b1 < 256 := h b1 (by simp)
    have hb2 : b2 < 256 := h b2 (by simp)
    simp only [b64EncodeChars, b64DecodeChars]
    rw [if_neg (b64Char_lt_ne_eq _ (by omega : b2 % 16 * 4 < 64)), if_pos trivial]
    rw [b64Val_b64Char _ (by omega : b1 / 4 < 64),
      b64Val_b64Char _ (by omega : b1 % 4 * 16 + b2 / 16 < 64),
      b64Val_b64Char _ (by omega : b2 % 16 * 4 < 64)]
    simp only [List.cons.injEq, and_true]
    omega
  | b1 :: b2 :: b3 :: rest, h => by
    have hb1 : b1 < 256 := h b1 (by simp)
    have hb2 : b2 < 256 := h b2 (by simp)
    have hb3 : b3 < 256 := h b3 (by simp)
    have ih := b64_decode_encode rest fun b hb => h b (by simp [hb])
    simp only [b64EncodeChars, b64DecodeChars]
    rw [if_neg (b64Char_lt_ne_eq _ (by omega : b2 % 16 * 4 + b3 / 64 < 64)),
      if_neg (b64Char_lt_ne_eq _ (by omega : b3 % 64 < 64))]
    rw [b64Val_b64Char _ (by omega : b1 / 4 < 64),
      b64Val_b64Char _ (by omega : b1 % 4 * 16 + b2 / 16 < 64),
      b64Val_b64Char _ (by omega : b2 % 16 * 4 + b3 / 64 < 64),
      b64Val_b64Char _ (by omega : b3 % 64 < 64), ih]
    simp only [List.cons.injEq, and_true]
    refine ⟨by omega, by omega, by omega⟩

theorem b64EncodeChars_no_comma : ∀ l : List Nat, (∀ b ∈ l, b < 256) →
    ',' ∉ b64EncodeChars l
  | [], _ => by simp [b64EncodeChars]
  | [b1], h => by
    have hb1 : b1 < 256 := h b1 (by simp)
    intro hmem
    simp only [b64EncodeChars, List.mem_cons, List.not_mem_nil, or_false] at hmem
    rcases hmem with h1 | h2 | h3 | h4
    · exact b64Char_lt_ne_comma (b1 / 4) (by omega) h1.symm
    · exact b64Char_lt_ne_comma (b1 % 4 * 16) (by omega) h2.symm
    · exact absurd h3 (by decide)
    · exact absurd h4 (by decide)
  | [b1, b2], h => by
    have hb1 : b1 < 256 := h b1 (by simp)
    have hb2 : b2 < 256 := h b2 (by simp)
    intro hmem
    simp only [b64EncodeChars, List.mem_cons, List.not_mem_nil, or_false] at hmem
    rcases hmem with h1 | h2 | h3 | h4
    · exact b64Char_lt_ne_comma (b1 / 4) (by omega) h1.symm
    · exact b64Char_lt_ne_comma (b1 % 4 * 16 + b2 / 16) (by omega) h2.symm
    · exact b64Char_lt_ne_comma (b2 % 16 * 4) (by omega) h3.symm
    · exact absurd h4 (by decide)
  | b1 :: b2 :: b3 :: rest, h => by
    have hb1 : b1 < 256 := h b1 (by simp)
    have hb2 : b2 < 256 := h b2 (by simp)
    have hb3 : b3 < 256 := h b3 (by simp)
    have ih := b64EncodeChars_no_comma rest fun b hb => h b (by simp [hb])
    intro hmem
    simp only [b64EncodeChars, List.mem_cons] at hmem
    rcases hmem with h1 | h2 | h3 | h4 | h5
    · exact b64Char_lt_ne_comma (b1 / 4) (by omega) h1.symm
    · exact b64Char_lt_ne_comma (b1 % 4 * 16 + b2 / 16) (by omega) h2.symm
    · exact b64Char_lt_ne_comma (b2 % 16 * 4 + b3 / 64) (by omega) h3.symm
    · exact b64Char_lt_ne_comma (b3 % 64) (by omega) h4.symm
    · exact ih h5

/-! ## Claims -/

/-- C1: for every response whose first candidate's content parts contain at
least one part with inline binary image content, `editImageWithGemini`
returns the string built from the first such part (in part order, text parts
skipped); the remaining parts and every candidate after the first are never
consulted — the result does not depend on `cs` or on anything after the
found part. -/
theorem C1_first_image_part_wins
    (net : GenerateContentRequest → NetOutcome) (image : UploadedFile)
    (prompt : String) (resp : GenerateContentResponse)
    (ps : List ContentPart) (cs : List Candidate)
    (p : ContentPart) (d : InlineData)
    (hnet : net (buildRequest image prompt) = Except.ok resp)
    (hcand : resp.candidates =
      some ({ content := some { parts := some ps } } :: cs))
    (hfind : ps.find? (fun q => q.inlineData.isSome) = some p)
    (hd : p.inlineData = some d) :
    editImageWithGemini net image prompt =
      Except.ok ("data:" ++ d.mimeType ++ ";base64," ++ d.data) := by
  have hparts : responseParts resp = ps := by
    simp [responseParts, hcand]
  simp [editImageWithGemini, editResultOf, hnet, Except.bind, scanResponse,
    hparts, findFirstInline_eq_find, hfind, hd, mkDataUrl]

/-- C1 witness: a first candidate whose parts are a text part followed by an
image part yields the string built from the image part; a second candidate
is present and ignored. -/
theorem C1_first_image_part_wins_witness :
    editImageWithGemini
      (fun _ => Except.ok
        { candidates := some
            [{ content := some
                 { parts := some
                     [{ text := some "some commentary" },
                      { inlineData := some
                          { data := "XYZ", mimeType := "image/png" } }] } },
             { content := some
                 { parts := some
                     [{ inlineData := some
                          { data := "ZZZ", mimeType := "image/gif" } }] } }] })
      { base64 := "data:image/png;base64,AAAA", mimeType := "image/png",
        name := "a.png" }
      "add a hat"
      = Except.ok ("data:" ++ "image/png" ++ ";base64," ++ "XYZ") :=
  C1_first_image_part_wins _ _ _ _ _ _ _ _ rfl rfl (by rfl) (by rfl)

/-- C2: the selected image part is re-encoded with its own declared media
type and data — `mkDataUrl d.mimeType d.data` — so the output media type is
the response part's, not the input image's. -/
theorem C2_response_media_type_reencoded
    (net : GenerateContentRequest → NetOutcome) (image : UploadedFile)
    (prompt : String) (resp : GenerateContentResponse)
    (ps : List ContentPart) (cs : List Candidate)
    (p : ContentPart) (d : InlineData)
    (hnet : net (buildRequest image prompt) = Except.ok resp)
    (hcand : resp.candidates =
      some ({ content := some { parts := some ps } } :: cs))
    (hfind : ps.find? (fun q => q.inlineData.isSome) = some p)
    (hd : p.inlineData = some d) :
    editImageWithGemini net image prompt = Except.ok (mkDataUrl d.mimeType d.data) := by
  have hparts : responseParts resp = ps := by
    simp [responseParts, hcand]
  simp [editImageWithGemini, editResultOf, hnet, Except.bind, scanResponse,
    hparts, findFirstInline_eq_find, hfind, hd]

/-- C2 witness: the end-to-end scenario of the spec — input JPEG data URL
`data:image/jpeg;base64,AAAA`, instruction `make it red`, mocked response
part `{data: BBBB, mimeType: image/png}` — resolves to
`data:image/png;base64,BBBB`. -/
theorem C2_response_media_type_reencoded_witness :
    editImageWithGemini
      (fun _ => Except.ok
        { candidates := some
            [{ content := some
                 { parts := some
                     [{ inlineData := some
                          { data := "BBBB", mimeType := "image/png" } }] } }] })
      { base64 := "data:image/jpeg;base64,AAAA", mimeType := "image/jpeg",
        name := "cat.jpg" }
      "make it red"
      = Except.ok "data:image/png;base64,BBBB" :=
  C2_response_media_type_reencoded _ _ _ _ _ _ _
    { data := "BBBB", mimeType := "image/png" } rfl rfl (by rfl) (by rfl)

/-- C3: for every `UploadedFile` whose data URL has exactly one comma
(prefix tag, then raw base64 content) and every instruction, the single
request submitted by `editImageWithGemini` has exactly two ordered parts —
the inline part holding the raw content tagged with the input's MIME type,
then the instruction text — and requests only image output; moreover the
adapter consults the transport exactly at that request. -/
theorem C3_request_two_ordered_parts (image : UploadedFile) (prompt : String)
    (tag raw : List Char)
    (hsplit : image.base64.data = tag ++ ',' :: raw)
    (htag : ',' ∉ tag) (hraw : ',' ∉ raw) :
    buildRequest image prompt =
      { model := "gemini-2.5-flash-image"
        parts := [RequestPart.inlineData (some (String.mk raw)) image.mimeType,
                  RequestPart.text prompt]
        responseModalities := [Modality.IMAGE] } ∧
    ∀ net : GenerateContentRequest → NetOutcome,
      editImageWithGemini net image prompt =
        editResultOf (net (buildRequest image prompt)) := by
  refine ⟨?_, fun net => rfl⟩
  simp [buildRequest, stripBase64_one_comma image.base64 tag raw hsplit htag hraw]

/-- C3 witness: the concrete input `data:image/png;base64,AAAA` with prompt
`make it red` yields the two-part image-only request. -/
theorem C3_request_two_ordered_parts_witness :
    buildRequest
      { base64 := "data:image/png;base64,AAAA", mimeType := "image/png",
        name := "a.png" } "make it red" =
      { model := "gemini-2.5-flash-image"
        parts := [RequestPart.inlineData (some "AAAA") "image/png",
                  RequestPart.text "make it red"]
        responseModalities := [Modality.IMAGE] } :=
  (C3_request_two_ordered_parts
    { base64 := "data:image/png;base64,AAAA", mimeType := "image/png",
      name := "a.png" } "make it red"
    "data:image/png;base64".data "AAAA".data (by rfl) (by decide) (by decide)).1

/-- C4: when the stored image is absent or the instruction is empty,
`handleSubmit` performs zero `editImageWithGemini` invocations, sets the
validation error message, and leaves every other piece of state — in
particular the loading flag and the edited image — unchanged. -/
theorem C4_validation_blocks_network (net : GenerateContentRequest → NetOutcome)
    (s : AppState) (h : s.originalImage = none ∨ s.prompt = "") :
    (handleSubmit net s).2 = 0 ∧
    (handleSubmit net s).1 = { s with error := some validationMessage } ∧
    (handleSubmit net s).1.isLoading = s.isLoading ∧
    (handleSubmit net s).1.editedImage = s.editedImage := by
  rcases h with h | h
  · simp [handleSubmit, h]
  · cases him : s.originalImage with
    | none => simp [handleSubmit, him]
    | some img => simp [handleSubmit, him, h]

/-- C4 witness: a state with no image and a non-empty prompt. -/
theorem C4_validation_blocks_network_witness :
    (handleSubmit (fun _ => Except.error Thrown.other)
      { originalImage := none, editedImage := none, prompt := "make it red",
        isLoading := false, error := none }).2 = 0 ∧
    (handleSubmit (fun _ => Except.error Thrown.other)
      { originalImage := none, editedImage := none, prompt := "make it red",
        isLoading := false, error := none }).1 =
      { originalImage := none, editedImage := none, prompt := "make it red",
        isLoading := false, error := some validationMessage } := by
  have h := C4_validation_blocks_network (fun _ => Except.error Thrown.other)
    { originalImage := none, editedImage := none, prompt := "make it red",
      isLoading := false, error := none } (Or.inl rfl)
  exact ⟨h.1, h.2.1⟩

/-- C5: every failure inside the adapter surfaces as a single string — a
thrown `Error` rejects with the fixed text followed by its message, any
other thrown value rejects with the fixed generic message, and a response
with no image part rejects with the no-image text; no structured error
crosses the boundary (the result type is `Except String String`). -/
theorem C5_failures_surface_as_strings
    (net : GenerateContentRequest → NetOutcome) (image : UploadedFile)
    (prompt : String) :
    (∀ m : String, net (buildRequest image prompt) = Except.error (Thrown.errObj m) →
      editImageWithGemini net image prompt =
        Except.error ("Failed to generate image: " ++ m)) ∧
    (net (buildRequest image prompt) = Except.error Thrown.other →
      editImageWithGemini net image prompt = Except.error unknownErrorMessage) ∧
    (∀ resp : GenerateContentResponse,
      net (buildRequest image prompt) = Except.ok resp →
      findFirstInline (responseParts resp) = none →
      editImageWithGemini net image prompt =
        Except.error ("Failed to generate image: " ++ noImageMessage)) := by
  refine ⟨fun m h => ?_, fun h => ?_, fun resp h hn => ?_⟩
  · simp [editImageWithGemini, editResultOf, h, Except.bind]
  · simp [editImageWithGemini, editResultOf, h, Except.bind]
  · simp [editImageWithGemini, editResultOf, h, Except.bind, scanResponse, hn]

/-- C5 witness: a transport failure whose thrown `Error` message is
`connection refused` rejects with the fixed text followed by that
message. -/
theorem C5_failures_surface_as_strings_witness :
    editImageWithGemini (fun _ => Except.error (Thrown.errObj "connection refused"))
      { base64 := "data:image/png;base64,AAAA", mimeType := "image/png",
        name := "a.png" } "make it red" =
      Except.error ("Failed to generate image: " ++ "connection refused") :=
  (C5_failures_surface_as_strings _ _ _).1 "connection refused" rfl

/-- C6: when no part of the first candidate carries inline image data — in
particular when there are no candidates or no parts at all — the adapter
rejects, and the rejection message carries the no-image description. -/
theorem C6_no_image_part_rejects
    (net : GenerateContentRequest → NetOutcome) (image : UploadedFile)
    (prompt : String) (resp : GenerateContentResponse)
    (hnet : net (buildRequest image prompt) = Except.ok resp)
    (hparts : ∀ p ∈ responseParts resp, p.inlineData = none) :
    editImageWithGemini net image prompt =
      Except.error ("Failed to generate image: " ++ noImageMessage) := by
  have hn := findFirstInline_eq_none _ hparts
  simp [editImageWithGemini, editResultOf, hnet, Except.bind, scanResponse, hn]

/-- C6 witness: a response whose only candidate has a single text part and
no image part rejects with the no-image message. -/
theorem C6_no_image_part_rejects_witness :
    editImageWithGemini
      (fun _ => Except.ok
        { candidates := some
            [{ content := some
                 { parts := some [{ text := some "cannot comply" }] } }] })
      { base64 := "data:image/png;base64,AAAA", mimeType := "image/png",
        name := "a.png" } "make it red" =
      Except.error ("Failed to generate image: " ++ noImageMessage) :=
  C6_no_image_part_rejects _ _ _ _ rfl (by decide)

/-- C7: for every input file (bytes below 256, comma-free declared MIME
type), the ingested `UploadedFile` has the declared media type in its
`mimeType` field, and stripping the embedded media-type tag from its data
URL (exactly as the adapter does) leaves the encoded content, whose
decoding reconstructs the original bytes. -/
theorem C7_ingestion_roundtrip (f : InputFile)
    (hbytes : ∀ b ∈ f.bytes, b < 256) (hmt : ',' ∉ f.type.data) :
    (fileToUploadedFile f).mimeType = f.type ∧
    stripBase64 (fileToUploadedFile f).base64 =
      some (String.mk (b64EncodeChars f.bytes)) ∧
    b64DecodeChars (b64EncodeChars f.bytes) = f.bytes := by
  refine ⟨rfl, ?_, b64_decode_encode f.bytes hbytes⟩
  have h1 : (";base64," : String).data = (";base64" : String).data ++ [','] := by
    decide
  have hdata : (fileToUploadedFile f).base64.data =
      ("data:" ++ f.type ++ ";base64").data ++ ',' :: b64EncodeChars f.bytes := by
    show ("data:" ++ f.type ++ ";base64," ++ String.mk (b64EncodeChars f.bytes)).data = _
    simp [String.data_append, h1]
  have htag : ',' ∉ ("data:" ++ f.type ++ ";base64").data := by
    intro hmem
    simp only [String.data_append, List.mem_append] at hmem
    rcases hmem with (hm | hm) | hm
    · exact absurd hm (by decide)
    · exact hmt hm
    · exact absurd hm (by decide)
  exact stripBase64_one_comma _ _ _ hdata htag
    (b64EncodeChars_no_comma f.bytes hbytes)

/-- C7 witness: the two bytes 104 105 with MIME type `image/png` ingest to
`data:image/png;base64,aGk=`, and stripping then decoding returns the two
bytes. -/
theorem C7_ingestion_roundtrip_witness :
    (fileToUploadedFile
      { bytes := [104, 105], type := "image/png", name := "hi.png" }).mimeType =
        "image/png" ∧
    stripBase64 (fileToUploadedFile
      { bytes := [104, 105], type := "image/png", name := "hi.png" }).base64 =
        some (String.mk (b64EncodeChars [104, 105])) ∧
    b64DecodeChars (b64EncodeChars [104, 105]) = [104, 105] :=
  C7_ingestion_roundtrip
    { bytes := [104, 105], type := "image/png", name := "hi.png" }
    (by decide) (by decide)

/-- C8: when the submit operation runs the adapter and the adapter rejects,
the resulting state is stable: loading flag cleared, no edited image (no
partial result), the surfaced message in the error state, and the stored
image and prompt untouched; exactly one adapter invocation happened. -/
theorem C8_failure_leaves_stable_state
    (net : GenerateContentRequest → NetOutcome) (s : AppState)
    (img : UploadedFile) (msg : String)
    (him : s.originalImage = some img) (hp : s.prompt ≠ "")
    (hfail : editImageWithGemini net img s.prompt = Except.error msg) :
    (handleSubmit net s).1.isLoading = false ∧
    (handleSubmit net s).1.editedImage = none ∧
    (handleSubmit net s).1.error = some msg ∧
    (handleSubmit net s).1.originalImage = s.originalImage ∧
    (handleSubmit net s).1.prompt = s.prompt ∧
    (handleSubmit net s).2 = 1 := by
  simp [handleSubmit, him, hp, hfail]

/-- C8 witness: a loaded state whose transport throws a non-`Error` value
settles with the generic message, no edited image, and loading cleared. -/
theorem C8_failure_leaves_stable_state_witness :
    (handleSubmit (fun _ => Except.error Thrown.other)
      { originalImage :=
          some
            { base64 := "data:image/png;base64,AAAA"
              mimeType := "image/png"
              name := "a.png" }
        editedImage := none
        prompt := "make it red"
        isLoading := true
        error := none }).1.error = some unknownErrorMessage ∧
    (handleSubmit (fun _ => Except.error Thrown.other)
      { originalImage :=
          some
            { base64 := "data:image/png;base64,AAAA"
              mimeType := "image/png"
              name := "a.png" }
        editedImage := none
        prompt := "make it red"
        isLoading := true
        error := none }).1.isLoading = false := by
  have h := C8_failure_leaves_stable_state (fun _ => Except.error Thrown.other)
    { originalImage :=
        some
          { base64 := "data:image/png;base64,AAAA"
            mimeType := "image/png"
            name := "a.png" }
      editedImage := none
      prompt := "make it red"
      isLoading := true
      error := none }
    { base64 := "data:image/png;base64,AAAA", mimeType := "image/png",
      name := "a.png" }
    unknownErrorMessage rfl (by decide) rfl
  exact ⟨h.2.2.1, h.1⟩

/-- C9: the stripping step transmits exactly the segment between the first
and second comma of the data URL: the transmitted inline content is always
`stripBase64` of the data, which is `none` when the data has no comma, the
middle segment when it has two (everything after the second comma is
dropped), and the remainder — faithfully — exactly when it has one. -/
theorem C9_strip_between_first_two_commas :
    (∀ (image : UploadedFile) (prompt : String),
      (buildRequest image prompt).parts =
        [RequestPart.inlineData (stripBase64 image.base64) image.mimeType,
         RequestPart.text prompt]) ∧
    (∀ s : String, ',' ∉ s.data → stripBase64 s = none) ∧
    (∀ a b c : List Char, ',' ∉ a → ',' ∉ b →
      stripBase64 (String.mk (a ++ ',' :: (b ++ ',' :: c))) =
        some (String.mk b)) ∧
    (∀ a b : List Char, ',' ∉ a → ',' ∉ b →
      stripBase64 (String.mk (a ++ ',' :: b)) = some (String.mk b)) := by
  refine ⟨fun image prompt => rfl, stripBase64_of_no_comma, ?_, ?_⟩
  · intro a b c ha hb
    exact stripBase64_two_commas _ a b c rfl ha hb
  · intro a b ha hb
    exact stripBase64_one_comma _ a b rfl ha hb

/-- C9 witness: `nocomma` strips to nothing, `tag,RAW` strips to `RAW`, and
`tag,RAW,extra` also strips to `RAW`, dropping `extra`. -/
theorem C9_strip_between_first_two_commas_witness :
    stripBase64 "nocomma" = none ∧
    stripBase64 (String.mk ("tag".data ++ ',' :: ("RAW".data ++ ',' :: "extra".data))) =
      some (String.mk "RAW".data) ∧
    stripBase64 (String.mk ("tag".data ++ ',' :: "RAW".data)) =
      some (String.mk "RAW".data) :=
  ⟨C9_strip_between_first_two_commas.2.1 "nocomma" (by decide),
   C9_strip_between_first_two_commas.2.2.1 "tag".data "RAW".data "extra".data
     (by decide) (by decide),
   C9_strip_between_first_two_commas.2.2.2 "tag".data "RAW".data
     (by decide) (by decide)⟩

/-- C10: every rejection of `editImageWithGemini` is a plain string that is
either the fixed text followed by an underlying message or exactly the
fixed unknown-error message, so the caller's treatment of the rejection
value as a string is sound. -/
theorem C10_rejections_are_tagged_strings
    (net : GenerateContentRequest → NetOutcome) (image : UploadedFile)
    (prompt : String) (s : String)
    (h : editImageWithGemini net image prompt = Except.error s) :
    (∃ m : String, s = "Failed to generate image: " ++ m) ∨
      s = unknownErrorMessage := by
  unfold editImageWithGemini editResultOf at h
  cases hnet : net (buildRequest image prompt) with
  | error t =>
    cases t with
    | errObj m =>
      rw [hnet] at h
      simp only [Except.bind] at h
      exact Or.inl ⟨m, (Except.error.inj h).symm⟩
    | other =>
      rw [hnet] at h
      simp only [Except.bind] at h
      exact Or.inr (Except.error.inj h).symm
  | ok resp =>
    rw [hnet] at h
    simp only [Except.bind] at h
    cases hscan : scanResponse resp with
    | ok r => rw [hscan] at h; exact absurd h (by simp)
    | error t =>
      cases t with
      | errObj m =>
        rw [hscan] at h
        exact Or.inl ⟨m, (Except.error.inj h).symm⟩
      | other =>
        rw [hscan] at h
        exact Or.inr (Except.error.inj h).symm

/-- C10 witness: the rejection produced by a non-`Error` thrown value is the
fixed unknown-error message, satisfying the disjunction. -/
theorem C10_rejections_are_tagged_strings_witness :
    (∃ m : String, unknownErrorMessage = "Failed to generate image: " ++ m) ∨
      unknownErrorMessage = unknownErrorMessage :=
  C10_rejections_are_tagged_strings (fun _ => Except.error Thrown.other)
    { base64 := "data:image/png;base64,AAAA", mimeType := "image/png",
      name := "a.png" } "make it red" unknownErrorMessage rfl
